import Mathlib

/-!
Verification of the kommo-dashboard server (src/server.js) against its
natural-language specification.

Modelling conventions (shallow embedding):
* Timestamps are integers: milliseconds since the epoch for clock values
  (`Date.now()`, `Date` objects), seconds for the CRM record fields
  `created_at` / `closed_at` / `complete_till_at`, exactly as in the source.
* The server's local timezone is an explicit fixed offset `tz` in
  milliseconds east of UTC (no DST), so `new Date(Y, M, D)` — local
  midnight of a local calendar day `d` — has epoch `d * dayMs - tz`,
  and the local calendar day of an epoch `t` is `(t + tz).ediv dayMs`.
* Calendar dates are represented by their epoch-day index (an `Int`):
  the string `toISOString().slice(0, 10)` ("YYYY-MM-DD", UTC) is in
  bijection with `Int.ediv t dayMs`, which is what we store.
* JS numbers appearing in aggregation arithmetic are modelled as `ℚ`;
  `Number(x.toFixed(n))` is modelled as exact decimal rounding with ties
  away from zero for positive values (`jsToFixed`).
* Fallible or effectful steps are made explicit: the compute function of
  the cache layer is a pure value together with an "invoked" flag, and
  the HTTP responses consumed by the paginated fetcher are a list that
  the fetch loop walks through, emitting one `request` event per
  consumed response.
-/

namespace KommoDash

/-! ## CacheAside (src/server.js lines 12, 18-19, 32-39)

`const CACHE_TTL = 60 * 1000;` and `new LRU({ max: 500, ttl: CACHE_TTL })`.
An entry is live while `now - storedAt < CACHE_TTL`; `cache.has` is false
for an expired entry, after which `getCached` recomputes and stores.
The claims exercise at most two keys, so the capacity-500 LRU eviction is
never reached and is not modelled. -/

def CACHE_TTL : Nat := 60 * 1000

structure CacheEntry (α : Type) where
  value : α
  storedAt : Nat
  deriving Repr, DecidableEq

/-- The cache state: association list from key to entry, most recent first. -/
abbrev CacheState (α : Type) := List (String × CacheEntry α)

def cacheLookup (st : CacheState α) (key : String) : Option (CacheEntry α) :=
  (st.find? (fun p => p.1 == key)).map Prod.snd

def cacheSet (st : CacheState α) (key : String) (v : α) (now : Nat) : CacheState α :=
  (key, ⟨v, now⟩) :: st.filter (fun p => p.1 ≠ key)

/-- `getCached(key, fetchFn)` at clock `now`: if a live entry exists it is
returned without invoking `fetchFn`; otherwise `fetchFn` is invoked, the
result stored with the current timestamp, and returned.  The `Bool` records
whether `fetchFn` was invoked. -/
def getCached (st : CacheState α) (now : Nat) (key : String) (fetchFn : α) :
    α × CacheState α × Bool :=
  match cacheLookup st key with
  | some e =>
      if now - e.storedAt < CACHE_TTL then (e.value, st, false)
      else (fetchFn, cacheSet st key fetchFn now, true)
  | none => (fetchFn, cacheSet st key fetchFn now, true)

/-! ## RemoteFetcher: `kommoRequest` (src/server.js lines 42-79)

Page size 250, page numbers starting at 1.  A response is a bare array,
an envelope with `_embedded.items`, or any other shape (returned
immediately as a terminal value).  On HTTP 429 or any status >= 500 the
loop sleeps 1000 ms and reissues the request for the same page; any other
HTTP error or a network failure is thrown.  The loop consumes a list of
responses, one per request issued, and emits the trace of events. -/

def kommoLimit : Nat := 250

/-- `err.response.status === 429 || err.response.status >= 500`. -/
def retryable (status : Nat) : Bool := status == 429 || 500 ≤ status

inductive KData (α : Type) where
  | arr (items : List α)
  | embedded (items : List α)
  | other
  deriving Repr, DecidableEq

inductive KResp (α : Type) where
  | ok (data : KData α)
  | httpErr (status : Nat)
  | netErr
  deriving Repr, DecidableEq

inductive KEvent where
  | request (page : Nat)
  | sleep (ms : Nat)
  deriving Repr, DecidableEq

inductive KOutcome (α : Type) where
  /-- the loop broke and returned the accumulated `results` -/
  | results (items : List α)
  /-- a non-list response shape was returned directly -/
  | terminal
  /-- a non-retryable error was thrown to the caller -/
  | fatalHttp (status : Nat)
  | fatalNetwork
  /-- the response list was exhausted with the loop still running -/
  | pending
  deriving Repr, DecidableEq

def kommoLoop : List (KResp α) → Nat → List α → List KEvent × KOutcome α
  | [], _, _ => ([], .pending)
  | .ok (.arr items) :: rest, page, acc =>
      if items.length < kommoLimit then ([.request page], .results (acc ++ items))
      else
        let r := kommoLoop rest (page + 1) (acc ++ items)
        (.request page :: r.1, r.2)
  | .ok (.embedded items) :: rest, page, acc =>
      if items.length < kommoLimit then ([.request page], .results (acc ++ items))
      else
        let r := kommoLoop rest (page + 1) (acc ++ items)
        (.request page :: r.1, r.2)
  | .ok .other :: _, page, _ => ([.request page], .terminal)
  | .httpErr s :: rest, page, acc =>
      if retryable s then
        let r := kommoLoop rest page acc
        (.request page :: .sleep 1000 :: r.1, r.2)
      else ([.request page], .fatalHttp s)
  | .netErr :: _, page, _ => ([.request page], .fatalNetwork)

/-- `kommoRequest(path, params)`: start at page 1 with empty results. -/
def kommoRequest (responses : List (KResp α)) : List KEvent × KOutcome α :=
  kommoLoop responses 1 []

/-- Requests issued in an event trace. -/
def requestsOf (evs : List KEvent) : List Nat :=
  evs.filterMap (fun e => match e with | .request p => some p | .sleep _ => none)

/-! ## Time model

`dayMs = 24 * 60 * 60 * 1000`.  The server clock and all `Date` values are
epoch milliseconds (`Int`); the host timezone is a fixed offset `tz` in
milliseconds east of UTC.  `localDay t tz` is the local calendar day index
of instant `t` (the `getFullYear/getMonth/getDate` triple, encoded as an
epoch-day number); `localMidnight t tz` is the epoch of
`new Date(t.getFullYear(), t.getMonth(), t.getDate())`; `utcDayMs t` is the
epoch-day encoding of `toISOString().slice(0, 10)` (a UTC date). -/

def dayMs : Int := 86400000

def localDay (t tz : Int) : Int := (t + tz).ediv dayMs

def localMidnight (t tz : Int) : Int := localDay t tz * dayMs - tz

def utcDayMs (t : Int) : Int := t.ediv dayMs

/-- `Math.ceil(a / b)` for integer `a` and positive integer `b`. -/
def ceilDiv (a b : Int) : Int := -((-a).ediv b)

/-- `{ start, end }` from `parseRange`; the source's `end` field is named
`finish` because `end` is a Lean keyword. -/
structure TimeRange where
  start : Int
  finish : Int
  deriving Repr, DecidableEq

/-! ## RangeResolver: `parseRange` (src/server.js lines 82-106)

`from`/`to` are modelled as already-parsed epoch instants; `none` is an
absent (falsy) parameter, so the `custom` branch requires both present. -/

def parseRange (range : String) (fromP toP : Option Int) (now tz : Int) : TimeRange :=
  let today : TimeRange := ⟨localMidnight now tz, localMidnight now tz + dayMs⟩
  if range = "today" then today
  else if range = "yesterday" then ⟨localMidnight now tz - dayMs, localMidnight now tz⟩
  else if range = "7d" then ⟨now - 7 * dayMs, now⟩
  else if range = "30d" then ⟨now - 30 * dayMs, now⟩
  else if range = "custom" then
    match fromP, toP with
    | some f, some t => ⟨f, t⟩
    | _, _ => today
  else today

/-! ## Data model: leads and tasks

A `Lead` carries the fields the aggregators read.  `statusName` is
`_embedded.status.name` when `_embedded.status` is present (`none`
otherwise); `created_at`/`closed_at` are epoch seconds; `price` is absent
or a number (`l.price || 0` in the source is `price.getD 0`: a present
price of `0` is falsy in JS but `0 || 0 = 0`, so the two agree). -/

structure Lead where
  status_id : Option Int := none
  price : Option ℚ := none
  created_at : Int := 0
  closed_at : Int := 0
  statusName : Option String := none
  deriving Repr, DecidableEq

structure Task where
  complete_till_at : Option Int := none
  deriving Repr, DecidableEq

/-! ## MetricsAggregator (src/server.js lines 171-194)

`Number(x.toFixed(n))` is modelled as exact decimal rounding to `n` places
with ties rounded up (ECMAScript `toFixed` picks the larger candidate
integer on a tie). -/

def jsToFixed (f : Nat) (x : ℚ) : ℚ := (⌊x * 10 ^ f + 1 / 2⌋ : ℤ) / 10 ^ f

structure Metrics where
  leads_created : Nat
  leads_won : Nat
  leads_lost : Nat
  active_leads : Nat
  conversion_rate : ℚ
  revenue_won : ℚ
  avg_ticket : ℚ
  time_to_first_touch_avg_minutes : Option ℚ
  deriving Repr, DecidableEq

def metricsAggregate (createdLeads closedLeads : List Lead) : Metrics :=
  let wonLeads := closedLeads.filter (fun l => l.status_id == some 142)
  let lostLeads := closedLeads.filter (fun l => l.status_id == some 143)
  let activeLeads := createdLeads.filter
    (fun l => l.status_id != some 142 && l.status_id != some 143)
  let leadsCreatedCount := createdLeads.length
  let leadsWonCount := wonLeads.length
  let leadsLostCount := lostLeads.length
  let revenueWon : ℚ := wonLeads.foldl (fun sum l => sum + l.price.getD 0) 0
  let conversionRate : ℚ :=
    if 0 < leadsCreatedCount then ((leadsWonCount : ℚ) / (leadsCreatedCount : ℚ)) * 100 else 0
  let avgTicket : ℚ := if 0 < leadsWonCount then revenueWon / (leadsWonCount : ℚ) else 0
  { leads_created := leadsCreatedCount
    leads_won := leadsWonCount
    leads_lost := leadsLostCount
    active_leads := activeLeads.length
    conversion_rate := jsToFixed 4 conversionRate
    revenue_won := revenueWon
    avg_ticket := jsToFixed 2 avgTicket
    time_to_first_touch_avg_minutes := none }

/-! ## FunnelAggregator (src/server.js lines 206-224)

The source accumulates into a plain JS object `stageMap` keyed by the
stage label and returns `Object.values(stageMap)`.  ECMAScript orders an
ordinary object's string keys as: keys that are canonical array indices
(the canonical decimal form of an integer `< 2^32 - 1`) first, in
ascending numeric order, then the remaining keys in insertion order.
`jsObjectValues` reproduces that order from the insertion-ordered
association list. -/

def stageLabel (l : Lead) : String :=
  match l.statusName with
  | some n => n
  | none =>
      match l.status_id with
      | some s => toString s
      | none => "undefined"

def updateStage : List (String × Nat × ℚ) → String → ℚ → List (String × Nat × ℚ)
  | [], name, p => [(name, 1, p)]
  | (n, c, v) :: rest, name, p =>
      if n = name then (n, c + 1, v + p) :: rest
      else (n, c, v) :: updateStage rest name p

def buildStageMap (leads : List Lead) : List (String × Nat × ℚ) :=
  leads.foldl (fun m l => updateStage m (stageLabel l) (l.price.getD 0)) []

/-- The numeric value of a decimal digit character, if it is one. -/
def digitVal (c : Char) : Option Nat :=
  if c.isDigit then some (c.toNat - 48) else none

/-- Parse a non-empty all-digit character list as a decimal number. -/
def natOfDigits : List Char → Nat → Option Nat
  | [], acc => some acc
  | c :: cs, acc =>
      match digitVal c with
      | some d => natOfDigits cs (acc * 10 + d)
      | none => none

/-- The canonical decimal digit list of `n` (fuel-structured so it reduces). -/
def natToDigitsAux : Nat → Nat → List Char
  | 0, _ => []
  | fuel + 1, n =>
      if n < 10 then [Char.ofNat (48 + n)]
      else natToDigitsAux fuel (n / 10) ++ [Char.ofNat (48 + n % 10)]

def natToString (n : Nat) : String := ⟨natToDigitsAux (n + 1) n⟩

/-- The decimal value of a property key string, `none` if it is not a
non-empty digit string. -/
def keyToNat (s : String) : Option Nat :=
  match s.data with
  | [] => none
  | cs => natOfDigits cs 0

/-- Is `s` a canonical array-index property key (ECMAScript): the canonical
decimal form of an integer `< 2^32 - 1`? -/
def isArrayIndexKey (s : String) : Bool :=
  match keyToNat s with
  | some n => (natToString n == s) && decide (n < 4294967295)
  | none => false

def insortByNat (key : α → Nat) (x : α) : List α → List α
  | [] => [x]
  | y :: ys => if key x ≤ key y then x :: y :: ys else y :: insortByNat key x ys

def sortByNat (key : α → Nat) (l : List α) : List α := l.foldr (insortByNat key) []

def jsObjectValues (m : List (String × β)) : List (String × β) :=
  sortByNat (fun p => (keyToNat p.1).getD 0) (m.filter (fun p => isArrayIndexKey p.1))
    ++ m.filter (fun p => !isArrayIndexKey p.1)

structure StageEntry where
  stage_name : String
  count : Nat
  value_sum : ℚ
  deriving Repr, DecidableEq

def funnelAggregate (leads : List Lead) : List StageEntry :=
  (jsObjectValues (buildStageMap leads)).map (fun p => ⟨p.1, p.2.1, p.2.2⟩)

/-! ## TimeSeriesAggregator (src/server.js lines 239-268)

The series is a JS object keyed by `"YYYY-MM-DD"` strings (never array
indices, so `Object.keys` iterates in insertion order); we store the
epoch-day encoding of the key.  Key `i` of the zero-filled series is the
UTC date (`toISOString`) of the instant
`new Date(start.getFullYear(), start.getMonth(), start.getDate() + i)`,
i.e. of local midnight `i` days after `start`'s local date.  Records are
bucketed by the UTC date of `created_at * 1000` / `closed_at * 1000`; a
bucket outside the key set is dropped (`series[k] !== undefined`).
The second component counts the lead fetches performed. -/

def utcDayOfSec (t : Int) : Int := utcDayMs (t * 1000)

def daysCount (r : TimeRange) : Int := ceilDiv (r.finish - r.start) dayMs

def seriesKeys (r : TimeRange) (tz : Int) : List Int :=
  (List.range (daysCount r).toNat).map
    (fun (i : Nat) => utcDayMs (localMidnight r.start tz + (i : Int) * dayMs))

def zeroSeries (r : TimeRange) (tz : Int) : List (Int × ℚ) :=
  (seriesKeys r tz).map (fun k => (k, 0))

def bumpSeries (s : List (Int × ℚ)) (k : Int) (q : ℚ) : List (Int × ℚ) :=
  s.map (fun p => if p.1 = k then (p.1, p.2 + q) else p)

def tsCompute (metric : String) (r : TimeRange) (tz : Int)
    (createdLeads closedLeads : List Lead) : List (Int × ℚ) × Nat :=
  let s0 := zeroSeries r tz
  if metric = "leads_created" then
    (createdLeads.foldl (fun s l => bumpSeries s (utcDayOfSec l.created_at) 1) s0, 1)
  else if metric = "leads_won" ∨ metric = "revenue_won" then
    let wonLeads := closedLeads.filter (fun l => l.status_id == some 142)
    (wonLeads.foldl
      (fun s l => bumpSeries s (utcDayOfSec l.closed_at)
        (if metric = "leads_won" then 1 else l.price.getD 0)) s0, 1)
  else (s0, 0)

/-! ## The `/api/timeseries` handler (src/server.js lines 232-274)

`const { metric, range = '7d', pipeline_id, user_id } = req.query;` then
`if (!metric) return 400`; the cache key interpolates the raw parameters
(`undefined` for absent ones); `parseRange(range)` is called **without**
`from`/`to`.  Query-string parameters are `Option String`; `jsTruthyStr`
is JS truthiness of such a parameter (absent and `""` are falsy). -/

def jsTruthyStr : Option String → Bool
  | none => false
  | some s => s != ""

def jsStr : Option String → String
  | none => "undefined"
  | some s => s

/-- The range the timeseries handler resolves: the `'7d'` default is
substituted for an absent `range`, and `from`/`to` are never passed. -/
def tsResolvedRange (range : Option String) (now tz : Int) : TimeRange :=
  parseRange (range.getD "7d") none none now tz

inductive TsBody where
  | error (msg : String)
  | series (xs : List (Int × ℚ))
  deriving Repr, DecidableEq

/-- The `/api/timeseries` handler.  `now`/`tz` drive range resolution;
`cacheNow` is the cache clock (ms); `createdLeads`/`closedLeads` are the
records the two fetchers would return.  Result: HTTP status, body, new
cache state, and the number of lead fetches performed. -/
def tsHandler (metric range pipelineId userId : Option String) (now tz : Int)
    (createdLeads closedLeads : List Lead)
    (st : CacheState (List (Int × ℚ))) (cacheNow : Nat) :
    Nat × TsBody × CacheState (List (Int × ℚ)) × Nat :=
  if !jsTruthyStr metric then (400, .error "metric is required", st, 0)
  else
    let m := jsStr metric
    let key := "/timeseries?metric=" ++ m ++ "&range=" ++ (range.getD "7d")
      ++ "&pipeline=" ++ jsStr pipelineId ++ "&user_id=" ++ jsStr userId
    let r := tsResolvedRange range now tz
    let c := tsCompute m r tz createdLeads closedLeads
    let g := getCached st cacheNow key c.1
    (200, .series g.1, g.2.1, if g.2.2 then c.2 else 0)

/-! ## TaskBucketer (src/server.js lines 281-304)

`task.complete_till_at ? new Date(task.complete_till_at * 1000) : null`:
a present but zero timestamp is falsy, so such a task is skipped exactly
like an absent one.  The `today` test compares the
`getFullYear/getMonth/getDate` triples of `due` and `now`, i.e. equality
of local calendar days. -/

def taskDue (t : Task) : Option Int :=
  match t.complete_till_at with
  | some s => if s ≠ 0 then some (s * 1000) else none
  | none => none

structure TaskBuckets where
  overdue : Nat
  today : Nat
  next48h : Nat
  deriving Repr, DecidableEq

def bucketOne (b : TaskBuckets) (due now tz : Int) : TaskBuckets :=
  if due < now then { b with overdue := b.overdue + 1 }
  else if localDay due tz = localDay now tz then { b with today := b.today + 1 }
  else if due - now ≤ 48 * 60 * 60 * 1000 then { b with next48h := b.next48h + 1 }
  else b

def bucketTasks (tasks : List Task) (now tz : Int) : TaskBuckets :=
  tasks.foldl
    (fun b t =>
      match taskDue t with
      | some d => bucketOne b d now tz
      | none => b)
    ⟨0, 0, 0⟩

/-! ## Spec-side definitions

These follow the words of the specification / claims (not the source);
each is compared against the corresponding source-derived definition in a
refinement theorem or refuted by a counterexample. -/

/-- Modelled from the claim's words (C4): the metrics payload as §4.4
describes it — won/lost/active counts, `conversion_rate = won/created*100`
(0 when created = 0) rounded to 4 places, `revenue_won` the sum of `price`
over won leads (0 when absent), `avg_ticket = revenue_won/won` (0 when
won = 0) rounded to 2 places, and a null time-to-first-touch field. -/
def metricsSpec (createdLeads closedLeads : List Lead) : Metrics :=
  let won := closedLeads.filter (fun l => l.status_id == some 142)
  let lost := closedLeads.filter (fun l => l.status_id == some 143)
  let active := createdLeads.filter
    (fun l => l.status_id != some 142 && l.status_id != some 143)
  let revenue : ℚ := (won.map (fun l => l.price.getD 0)).sum
  { leads_created := createdLeads.length
    leads_won := won.length
    leads_lost := lost.length
    active_leads := active.length
    conversion_rate :=
      if createdLeads.length = 0 then 0
      else jsToFixed 4 (((won.length : ℚ) / (createdLeads.length : ℚ)) * 100)
    revenue_won := revenue
    avg_ticket := if won.length = 0 then 0 else jsToFixed 2 (revenue / (won.length : ℚ))
    time_to_first_touch_avg_minutes := none }

/-- First occurrences of the elements of a list, given already-seen ones. -/
def newLabels (seen : List String) : List String → List String
  | [] => []
  | x :: xs => if x ∈ seen then newLabels seen xs else x :: newLabels (seen ++ [x]) xs

def firstOccur (l : List String) : List String := newLabels [] l

/-- Modelled from the claim's words (C5): one group per distinct stage
label in first-occurrence order, carrying the count of leads with that
label and the sum of their prices. -/
def funnelGroupSpec (leads : List Lead) : List (String × Nat × ℚ) :=
  (firstOccur (leads.map stageLabel)).map
    (fun n =>
      (n, (leads.filter (fun l => stageLabel l = n)).length,
        ((leads.filter (fun l => stageLabel l = n)).map (fun l => l.price.getD 0)).sum))

/-- Modelled from the claim's words (C6): the series keyed by the **local**
calendar date of each of the `dayCount` days from `start`'s local date,
each record bucketed by the **local** calendar date of its timestamp. -/
def tsComputeLocalSpec (metric : String) (r : TimeRange) (tz : Int)
    (createdLeads closedLeads : List Lead) : List (Int × ℚ) :=
  let s0 : List (Int × ℚ) :=
    (List.range (daysCount r).toNat).map
      (fun (i : Nat) => (localDay r.start tz + (i : Int), (0 : ℚ)))
  if metric = "leads_created" then
    createdLeads.foldl (fun s l => bumpSeries s (localDay (l.created_at * 1000) tz) 1) s0
  else if metric = "leads_won" ∨ metric = "revenue_won" then
    let wonLeads := closedLeads.filter (fun l => l.status_id == some 142)
    wonLeads.foldl
      (fun s l => bumpSeries s (localDay (l.closed_at * 1000) tz)
        (if metric = "leads_won" then 1 else l.price.getD 0)) s0
  else s0

/-- The value the time series holds at day `k` (used to state C6's amended
claim): the count, or summed price, of the records whose (UTC) calendar
day is `k`, according to the metric. -/
def tsValueSpec (metric : String) (createdLeads closedLeads : List Lead) (k : Int) : ℚ :=
  if metric = "leads_created" then
    ((createdLeads.filter (fun l => utcDayOfSec l.created_at = k)).length : ℚ)
  else if metric = "leads_won" ∨ metric = "revenue_won" then
    let won := (closedLeads.filter (fun l => l.status_id == some 142)).filter
      (fun l => utcDayOfSec l.closed_at = k)
    if metric = "leads_won" then (won.length : ℚ)
    else (won.map (fun l => l.price.getD 0)).sum
  else 0

/-- Bool predicates for the three task buckets (used to state C8's
amended claim); they follow the guards of the source in order. -/
def isOverdue (t : Task) (now : Int) : Bool :=
  match taskDue t with
  | some d => decide (d < now)
  | none => false

def isTodayTask (t : Task) (now tz : Int) : Bool :=
  match taskDue t with
  | some d => !decide (d < now) && decide (localDay d tz = localDay now tz)
  | none => false

def isNext48h (t : Task) (now tz : Int) : Bool :=
  match taskDue t with
  | some d =>
      !decide (d < now) && !decide (localDay d tz = localDay now tz) &&
        decide (d - now ≤ 48 * 60 * 60 * 1000)
  | none => false

/-! ## Shared lemmas -/

theorem cacheLookup_cacheSet_self (st : CacheState α) (k : String) (v : α) (t : Nat) :
    cacheLookup (cacheSet st k v t) k = some ⟨v, t⟩ := by
  simp [cacheLookup, cacheSet, List.find?_cons]

theorem getCached_invoked_state (st : CacheState α) (now : Nat) (k : String) (f : α)
    (h : (getCached st now k f).2.2 = true) :
    (getCached st now k f).2.1 = cacheSet st k f now := by
  unfold getCached at *
  cases hl : cacheLookup st k with
  | none => simp [hl]
  | some e =>
      simp only [hl] at h ⊢
      by_cases hfresh : now - e.storedAt < CACHE_TTL
      · simp [hfresh] at h
      · simp [hfresh]

/-! ## C1 -/

/-- C1: cache-aside TTL contract of `getCached`.  For any prior state, two
sequential calls with the same key at clock values `t1 ≤ t2` with
`t2 - t1` inside the 60 s TTL invoke the compute function at most once;
and starting from a state with no entry for the key, the first call
invokes and stores, a second call within the TTL returns the stored value
without invoking, and a second call at or after TTL expiry invokes again
and stores the fresh result. -/
theorem getCached_ttl_contract (st : CacheState α) (k : String) (f1 f2 : α)
    (t1 t2 : Nat) (hle : t1 ≤ t2) :
    (t2 - t1 < CACHE_TTL →
      ¬((getCached st t1 k f1).2.2 = true ∧
        (getCached (getCached st t1 k f1).2.1 t2 k f2).2.2 = true)) ∧
    (cacheLookup st k = none →
      getCached st t1 k f1 = (f1, cacheSet st k f1 t1, true) ∧
      (t2 - t1 < CACHE_TTL →
        getCached (cacheSet st k f1 t1) t2 k f2 = (f1, cacheSet st k f1 t1, false)) ∧
      (CACHE_TTL ≤ t2 - t1 →
        getCached (cacheSet st k f1 t1) t2 k f2 =
          (f2, cacheSet (cacheSet st k f1 t1) k f2 t2, true))) := by
  have hhit : ∀ (v : α) (g : α), t2 - t1 < CACHE_TTL →
      getCached (cacheSet st k v t1) t2 k g = (v, cacheSet st k v t1, false) := by
    intro v g hwin
    unfold getCached
    rw [cacheLookup_cacheSet_self]
    simp [hwin]
  constructor
  · intro hwin hboth
    obtain ⟨h1, h2⟩ := hboth
    rw [getCached_invoked_state st t1 k f1 h1] at h2
    rw [hhit f1 f2 hwin] at h2
    simp at h2
  · intro hnone
    have hfirst : getCached st t1 k f1 = (f1, cacheSet st k f1 t1, true) := by
      unfold getCached; rw [hnone]
    refine ⟨hfirst, fun hwin => hhit f1 f2 hwin, fun hexp => ?_⟩
    unfold getCached
    rw [cacheLookup_cacheSet_self]
    simp only
    have : ¬(t2 - t1 < CACHE_TTL) := by omega
    simp [this]

/-- Witness for C1 at concrete inputs: key `"k"`, value `5` computed and
stored at time `0`, re-read at time `1` (inside the TTL) without
recomputation. -/
theorem getCached_ttl_contract_witness :
    getCached (cacheSet ([] : CacheState Nat) "k" 5 0) 1 "k" 7 =
      (5, cacheSet ([] : CacheState Nat) "k" 5 0, false) :=
  (((getCached_ttl_contract ([] : CacheState Nat) "k" 5 7 0 1 (by decide)).2
    (by decide)).2.1) (by decide)

/-! ## C2 -/

theorem kommoLoop_retryable_cons {α : Type} (s : Nat) (hs : retryable s = true)
    (rest : List (KResp α)) (page : Nat) (acc : List α) :
    kommoLoop (.httpErr s :: rest) page acc =
      (.request page :: .sleep 1000 :: (kommoLoop rest page acc).1,
        (kommoLoop rest page acc).2) := by
  simp [kommoLoop, hs]

theorem kommoLoop_retryable_replicate {α : Type} (s : Nat) (hs : retryable s = true)
    (n : Nat) (rest : List (KResp α)) (page : Nat) (acc : List α) :
    kommoLoop (List.replicate n (.httpErr s) ++ rest) page acc =
      ((List.replicate n [KEvent.request page, KEvent.sleep 1000]).flatten
          ++ (kommoLoop rest page acc).1,
        (kommoLoop rest page acc).2) := by
  induction n with
  | zero => simp
  | succ m ih =>
      rw [List.replicate_succ, List.cons_append, kommoLoop_retryable_cons s hs, ih]
      simp [List.replicate_succ]

/-- C2: retry policy of `kommoRequest`.  A response with HTTP status 429
or any status ≥ 500 is never propagated: the loop emits a fixed 1000 ms
sleep and reissues the request for the same page, and any number `n` of
consecutive such responses leaves the final outcome unchanged (no bound on
attempts).  Any non-retryable HTTP error, and any network failure, is
fatal: the loop throws immediately, aborting the whole fetch. -/
theorem kommoRequest_retry_policy {α : Type} (s : Nat) (rest : List (KResp α))
    (page : Nat) (acc : List α) :
    (retryable s = true →
      kommoLoop (.httpErr s :: rest) page acc =
        (.request page :: .sleep 1000 :: (kommoLoop rest page acc).1,
          (kommoLoop rest page acc).2)) ∧
    (retryable s = true → ∀ n : Nat,
      kommoLoop (List.replicate n (.httpErr s) ++ rest) page acc =
        ((List.replicate n [KEvent.request page, KEvent.sleep 1000]).flatten
            ++ (kommoLoop rest page acc).1,
          (kommoLoop rest page acc).2)) ∧
    (retryable s = false →
      kommoLoop (.httpErr s :: rest) page acc = ([.request page], .fatalHttp s)) ∧
    (retryable s = true ↔ (s = 429 ∨ 500 ≤ s)) ∧
    kommoLoop (.netErr :: rest) page acc = ([.request page], .fatalNetwork) := by
  refine ⟨fun hs => kommoLoop_retryable_cons s hs rest page acc,
    fun hs n => kommoLoop_retryable_replicate s hs n rest page acc,
    fun hs => ?_, ?_, by simp [kommoLoop]⟩
  · simp [kommoLoop, hs]
  · simp [retryable, or_comm]

/-- Witness for C2: three consecutive 503 responses before a short page
are all retried on page 1 (with 1 s sleeps) and the fetch still succeeds
with the page's items. -/
theorem kommoRequest_retry_policy_witness :
    kommoLoop (List.replicate 3 (KResp.httpErr 503) ++ [KResp.ok (KData.arr [1, 2])]) 1
        ([] : List Nat) =
      ([KEvent.request 1, KEvent.sleep 1000, KEvent.request 1, KEvent.sleep 1000,
          KEvent.request 1, KEvent.sleep 1000, KEvent.request 1],
        KOutcome.results [1, 2]) :=
  (((kommoRequest_retry_policy 503 [KResp.ok (KData.arr [1, 2])] 1 ([] : List Nat)).2.1
      (by decide) 3).trans (by decide))

/-! ## C3 -/

def pagesToResponses (pages : List (List α)) : List (KResp α) :=
  pages.map (fun p => .ok (.arr p))

theorem kommoLoop_pages {α : Type} (front : List (List α)) (lastPage : List α)
    (hfull : ∀ p ∈ front, p.length = kommoLimit) (hlast : lastPage.length < kommoLimit)
    (page : Nat) (acc : List α) :
    kommoLoop (pagesToResponses (front ++ [lastPage])) page acc =
      ((List.range' page (front.length + 1)).map KEvent.request,
        .results (acc ++ (front ++ [lastPage]).flatten)) := by
  induction front generalizing page acc with
  | nil => simp [pagesToResponses, kommoLoop, hlast, List.range'_one]
  | cons p ps ih =>
      have hp : p.length = kommoLimit := hfull p (List.mem_cons_self p ps)
      have hnot : ¬p.length < kommoLimit := by omega
      have hrec := ih (fun q hq => hfull q (List.mem_cons_of_mem _ hq)) (page + 1) (acc ++ p)
      simp only [pagesToResponses, List.map_cons, List.cons_append] at hrec ⊢
      simp only [kommoLoop, hnot, if_false]
      rw [hrec]
      simp [List.range'_succ, List.append_assoc]

theorem requestsOf_map_request (l : List Nat) : requestsOf (l.map KEvent.request) = l := by
  induction l with
  | nil => rfl
  | cons a t ih => simpa [requestsOf] using ih

/-- C3: pagination of `kommoRequest`.  Given pages of exactly 250 items
followed by a final shorter page, the loop issues exactly one request per
page with page numbers 1, 2, …, stops after the first short page, and
returns the concatenation of all pages in order; so the number of requests
equals the number of pages and the result count equals the sum of the page
lengths. -/
theorem kommoRequest_pagination {α : Type} (front : List (List α)) (lastPage : List α)
    (hfull : ∀ p ∈ front, p.length = kommoLimit) (hlast : lastPage.length < kommoLimit) :
    kommoRequest (pagesToResponses (front ++ [lastPage])) =
      ((List.range' 1 (front.length + 1)).map KEvent.request,
        .results (front ++ [lastPage]).flatten) ∧
    requestsOf (kommoRequest (pagesToResponses (front ++ [lastPage]))).1 =
      List.range' 1 (front.length + 1) ∧
    (requestsOf (kommoRequest (pagesToResponses (front ++ [lastPage]))).1).length =
      (front ++ [lastPage]).length ∧
    ((front ++ [lastPage]).flatten).length = ((front ++ [lastPage]).map List.length).sum := by
  have h := kommoLoop_pages front lastPage hfull hlast 1 []
  have h1 : kommoRequest (pagesToResponses (front ++ [lastPage])) =
      ((List.range' 1 (front.length + 1)).map KEvent.request,
        .results (front ++ [lastPage]).flatten) := by
    rw [kommoRequest, h]; simp
  refine ⟨h1, ?_, ?_, ?_⟩
  · rw [h1, requestsOf_map_request]
  · rw [h1, requestsOf_map_request]; simp
  · simp

/-- Witness for C3: one full page of 250 items followed by a short page of
one item yields two requests (pages 1 and 2) and the 251 items in order. -/
theorem kommoRequest_pagination_witness :
    kommoRequest (pagesToResponses [List.replicate kommoLimit (0 : Nat), [7]]) =
      ([KEvent.request 1, KEvent.request 2],
        KOutcome.results (List.replicate kommoLimit 0 ++ [7])) := by
  have h := (kommoRequest_pagination [List.replicate kommoLimit (0 : Nat)] [7]
      (by intro p hp; simp only [List.mem_singleton] at hp; simp [hp])
      (by simp [kommoLimit])).1
  rw [show ([List.replicate kommoLimit (0 : Nat), [7]] : List (List Nat)) =
      [List.replicate kommoLimit (0 : Nat)] ++ [[7]] from rfl, h]
  simp [List.range'_succ, List.range'_one]

/-! ## C4 -/

theorem foldl_add_map {β : Type} (f : β → ℚ) (xs : List β) (init : ℚ) :
    xs.foldl (fun s x => s + f x) init = init + (xs.map f).sum := by
  induction xs generalizing init with
  | nil => simp
  | cons a t ih => simp [ih, add_assoc]

theorem jsToFixed_zero (f : Nat) : jsToFixed f 0 = 0 := by
  have h : ((0 : ℚ) * 10 ^ f + 1 / 2) = 1 / 2 := by ring
  rw [jsToFixed, h]
  norm_num

theorem ite_jsToFixed (f n : Nat) (x : ℚ) :
    (if n = 0 then 0 else jsToFixed f x) = jsToFixed f (if 0 < n then x else 0) := by
  rcases Nat.eq_zero_or_pos n with h | h
  · simp [h, jsToFixed_zero]
  · simp [Nat.pos_iff_ne_zero.mp h, h]

/-- C4: the metrics aggregator matches the specified derivation — counts
for created/won (status 142)/lost (status 143)/active (neither),
`conversion_rate = won/created*100` rounded to 4 places and 0 when
created = 0, `revenue_won` the sum of prices over won leads (absent price
counts 0), `avg_ticket = revenue_won/won` rounded to 2 places and 0 when
won = 0, and an always-null time-to-first-touch field — and on
created = 10, won = 3, revenue 300 yields conversion 30.0000 and average
ticket 100.00. -/
theorem metricsAggregate_eq_spec (createdLeads closedLeads : List Lead) :
    metricsAggregate createdLeads closedLeads = metricsSpec createdLeads closedLeads ∧
    metricsAggregate (List.replicate 10 { status_id := some 1 })
        (List.replicate 3 { status_id := some 142, price := some 100 }) =
      { leads_created := 10, leads_won := 3, leads_lost := 0, active_leads := 10,
        conversion_rate := 30, revenue_won := 300, avg_ticket := 100,
        time_to_first_touch_avg_minutes := none } := by
  constructor
  · unfold metricsAggregate metricsSpec
    simp only [foldl_add_map, zero_add, ite_jsToFixed]
  · simp only [metricsAggregate, List.replicate_succ, List.replicate_zero]
    simp [List.filter_cons, List.filter_nil, beq_iff_eq, bne_iff_ne, List.foldl_cons,
      List.foldl_nil, Metrics.mk.injEq]
    norm_num [jsToFixed]

/-! ## C5 -/

/-- Lookup of a stage entry by label (first match). -/
def lookupStage : List (String × Nat × ℚ) → String → Option (Nat × ℚ)
  | [], _ => none
  | (k, c, v) :: rest, n => if k = n then some (c, v) else lookupStage rest n

/-- The number of leads with stage label `n`. -/
def cntL (leads : List Lead) (n : String) : Nat :=
  (leads.filter (fun l => stageLabel l = n)).length

/-- The summed price of the leads with stage label `n`. -/
def sumL (leads : List Lead) (n : String) : ℚ :=
  ((leads.filter (fun l => stageLabel l = n)).map (fun l => l.price.getD 0)).sum

theorem updateStage_keys (m : List (String × Nat × ℚ)) (n : String) (p : ℚ) :
    (updateStage m n p).map Prod.fst =
      if n ∈ m.map Prod.fst then m.map Prod.fst else m.map Prod.fst ++ [n] := by
  induction m with
  | nil => simp [updateStage]
  | cons a t ih =>
      obtain ⟨a1, a2, a3⟩ := a
      by_cases h : a1 = n
      · simp [updateStage, h]
      · by_cases hm : n ∈ t.map Prod.fst
        · simp [updateStage, h, ih, hm, Ne.symm h]
        · simp [updateStage, h, ih, hm, Ne.symm h]

theorem updateStage_nodup (m : List (String × Nat × ℚ)) (n : String) (p : ℚ)
    (h : (m.map Prod.fst).Nodup) : ((updateStage m n p).map Prod.fst).Nodup := by
  rw [updateStage_keys]
  by_cases hm : n ∈ m.map Prod.fst
  · simpa [hm]
  · simp [hm, List.nodup_append, h]

theorem lookupStage_updateStage (m : List (String × Nat × ℚ)) (lbl : String) (p : ℚ)
    (n : String) :
    lookupStage (updateStage m lbl p) n =
      if n = lbl then
        (match lookupStage m n with
          | some cv => some (cv.1 + 1, cv.2 + p)
          | none => some (1, p))
      else lookupStage m n := by
  induction m with
  | nil =>
      by_cases h : n = lbl
      · simp [updateStage, lookupStage, h]
      · simp [updateStage, lookupStage, h, Ne.symm h]
  | cons a t ih =>
      obtain ⟨k, c, v⟩ := a
      by_cases hk : k = lbl
      · by_cases hn : n = k
        · simp [updateStage, lookupStage, hk, hn]
        · have hnl : ¬n = lbl := fun hh => hn (hh.trans hk.symm)
          have hln : ¬lbl = n := fun hh => hnl hh.symm
          simp [updateStage, lookupStage, hk, hn, Ne.symm hn, hnl, hln]
      · by_cases hn : k = n
        · have hnl : ¬n = lbl := fun hh => hk (hn.trans hh)
          simp [updateStage, lookupStage, hk, hn, hnl]
        · simp [updateStage, lookupStage, hk, hn, ih]

theorem cntL_cons (l : Lead) (rest : List Lead) (n : String) :
    cntL (l :: rest) n = (if stageLabel l = n then 1 else 0) + cntL rest n := by
  by_cases h : stageLabel l = n <;> simp [cntL, List.filter_cons, h, Nat.add_comm]

theorem sumL_cons (l : Lead) (rest : List Lead) (n : String) :
    sumL (l :: rest) n = (if stageLabel l = n then l.price.getD 0 else 0) + sumL rest n := by
  by_cases h : stageLabel l = n <;> simp [sumL, List.filter_cons, h]

theorem lookupStage_fold (leads : List Lead) (m : List (String × Nat × ℚ)) (n : String) :
    lookupStage (leads.foldl (fun m l => updateStage m (stageLabel l) (l.price.getD 0)) m) n =
      match lookupStage m n with
      | some cv => some (cv.1 + cntL leads n, cv.2 + sumL leads n)
      | none =>
          if cntL leads n = 0 then none else some (cntL leads n, sumL leads n) := by
  induction leads generalizing m with
  | nil => cases h : lookupStage m n <;> simp [cntL, sumL, h]
  | cons l rest ih =>
      rw [List.foldl_cons, ih, lookupStage_updateStage, cntL_cons, sumL_cons]
      by_cases hn : n = stageLabel l
      · rw [if_pos hn]
        cases h : lookupStage m n with
        | some cv => simp [hn, h, add_assoc]
        | none => simp [hn, h, add_assoc]
      · rw [if_neg hn]
        have h2 : ¬stageLabel l = n := fun hh => hn hh.symm
        simp [h2]

theorem mem_lookupStage (m : List (String × Nat × ℚ))
    (hnd : (m.map Prod.fst).Nodup) (e : String × Nat × ℚ) (he : e ∈ m) :
    lookupStage m e.1 = some e.2 := by
  induction m with
  | nil => cases he
  | cons a t ih =>
      obtain ⟨k, c, v⟩ := a
      rw [List.map_cons] at hnd
      obtain ⟨hk0, ht⟩ := List.nodup_cons.mp hnd
      rcases List.mem_cons.mp he with h | h
      · subst h; simp [lookupStage]
      · have hk : ¬k = e.1 := by
          intro hh
          apply hk0
          rw [hh]
          exact List.mem_map.mpr ⟨e, h, rfl⟩
        simp only [lookupStage, hk, if_false]
        exact ih ht h

theorem newLabels_nodup (l : List String) (seen : List String) (h : seen.Nodup) :
    (seen ++ newLabels seen l).Nodup := by
  induction l generalizing seen with
  | nil => simpa [newLabels]
  | cons x xs ih =>
      by_cases hx : x ∈ seen
      · simpa [newLabels, hx] using ih seen h
      · have h2 : (seen ++ [x]).Nodup := by simp [List.nodup_append, h, hx]
        simpa [newLabels, hx, List.append_assoc] using ih (seen ++ [x]) h2

theorem keys_fold (leads : List Lead) (m : List (String × Nat × ℚ)) :
    ((leads.foldl (fun m l => updateStage m (stageLabel l) (l.price.getD 0)) m).map
        Prod.fst) =
      m.map Prod.fst ++ newLabels (m.map Prod.fst) (leads.map stageLabel) := by
  induction leads generalizing m with
  | nil => simp [newLabels]
  | cons l rest ih =>
      rw [List.foldl_cons, ih]
      by_cases hm : stageLabel l ∈ m.map Prod.fst
      · rw [updateStage_keys, if_pos hm]
        simp [newLabels, hm]
      · rw [updateStage_keys, if_neg hm]
        simp [newLabels, hm, List.append_assoc]

theorem assoc_ext {β : Type} (g : String → β) (xs : List (String × β)) :
    ∀ ys : List (String × β), xs.map Prod.fst = ys.map Prod.fst →
      (∀ p ∈ xs, p.2 = g p.1) → (∀ p ∈ ys, p.2 = g p.1) → xs = ys := by
  induction xs with
  | nil =>
      intro ys h _ _
      cases ys with
      | nil => rfl
      | cons y yt => simp at h
  | cons x xt ih =>
      intro ys h h1 h2
      cases ys with
      | nil => simp at h
      | cons y yt =>
          simp only [List.map_cons, List.cons.injEq] at h
          have hx := h1 x (List.mem_cons_self x xt)
          have hy := h2 y (List.mem_cons_self y yt)
          have hxy : x = y := by
            obtain ⟨x1, x2⟩ := x
            obtain ⟨y1, y2⟩ := y
            simp only at hx hy h ⊢
            exact Prod.ext h.1 (by rw [hx, hy, h.1])
          rw [hxy,
            ih yt h.2 (fun p hp => h1 p (List.mem_cons_of_mem _ hp))
              (fun p hp => h2 p (List.mem_cons_of_mem _ hp))]

theorem buildStageMap_eq_spec (leads : List Lead) :
    buildStageMap leads = funnelGroupSpec leads := by
  have hkeys : (buildStageMap leads).map Prod.fst = firstOccur (leads.map stageLabel) := by
    simpa [buildStageMap, firstOccur] using keys_fold leads []
  have hnd : ((buildStageMap leads).map Prod.fst).Nodup := by
    rw [hkeys]
    simpa [firstOccur] using newLabels_nodup (leads.map stageLabel) [] List.nodup_nil
  have hval : ∀ p ∈ buildStageMap leads, p.2 = (cntL leads p.1, sumL leads p.1) := by
    intro p hp
    have hl := mem_lookupStage (buildStageMap leads) hnd p hp
    have hf := lookupStage_fold leads [] p.1
    rw [show (buildStageMap leads) =
        leads.foldl (fun m l => updateStage m (stageLabel l) (l.price.getD 0)) [] from rfl,
      hf] at hl
    simp only [lookupStage] at hl
    by_cases h0 : cntL leads p.1 = 0
    · simp [h0] at hl
    · simp only [h0, if_false] at hl
      exact Option.some.inj hl.symm
  have hval2 : ∀ p ∈ funnelGroupSpec leads, p.2 = (cntL leads p.1, sumL leads p.1) := by
    intro p hp
    simp only [funnelGroupSpec] at hp
    obtain ⟨n, _, rfl⟩ := List.mem_map.mp hp
    simp [cntL, sumL]
  have hkeys2 : (funnelGroupSpec leads).map Prod.fst = firstOccur (leads.map stageLabel) := by
    simp [funnelGroupSpec, List.map_map, Function.comp_def]
  exact assoc_ext (fun n => (cntL leads n, sumL leads n)) (buildStageMap leads)
    (funnelGroupSpec leads) (hkeys.trans hkeys2.symm) hval hval2

/-- The three-lead example used by the claim. -/
def exFunnelLeads : List Lead :=
  [{ statusName := some "New", price := some 100 },
    { statusName := some "New", price := some 50 },
    { status_id := some 5, price := some 0 }]

/-- C5 counterexample: on the claim's own example input, `Object.values`
does **not** return insertion order — the label `"5"` is an array-index
key, so ECMAScript iterates it before `"New"`; the funnel output is
`[{"5",1,0}, {"New",2,150}]`, not the claimed `[{"New",2,150}, {"5",1,0}]`. -/
theorem funnelAggregate_insertion_order_cex :
    funnelAggregate exFunnelLeads ≠
      [{ stage_name := "New", count := 2, value_sum := 150 },
        { stage_name := "5", count := 1, value_sum := 0 }] ∧
    funnelAggregate exFunnelLeads =
      [{ stage_name := "5", count := 1, value_sum := 0 },
        { stage_name := "New", count := 2, value_sum := 150 }] := by
  have hspine : funnelAggregate exFunnelLeads =
      [⟨"5", 1, 0⟩, ⟨"New", 2, 100 + 50⟩] := by rfl
  constructor
  · rw [hspine]
    intro h
    simp [StageEntry.mk.injEq] at h
  · rw [hspine]
    norm_num

/-- C5 (amended): the funnel aggregator groups leads by stage label (the
nested status name if present, else the stringified `status_id`), with one
`{stage_name, count, value_sum}` entry per distinct label carrying the
lead count and price sum of that label, but the output order is the JS
object key order: labels that are canonical array-index strings first in
ascending numeric order, then the remaining labels in insertion order of
first occurrence.  On the claim's example this yields the `"5"` group
before the `"New"` group. -/
theorem funnelAggregate_amended (leads : List Lead) :
    funnelAggregate leads =
      (jsObjectValues (funnelGroupSpec leads)).map
        (fun p => { stage_name := p.1, count := p.2.1, value_sum := p.2.2 }) ∧
    funnelAggregate exFunnelLeads =
      [{ stage_name := "5", count := 1, value_sum := 0 },
        { stage_name := "New", count := 2, value_sum := 150 }] := by
  constructor
  · unfold funnelAggregate
    rw [buildStageMap_eq_spec]
  · have hspine : funnelAggregate exFunnelLeads =
        [⟨"5", 1, 0⟩, ⟨"New", 2, 100 + 50⟩] := by rfl
    rw [hspine]
    norm_num

/-! ## C6 -/

theorem foldl_bumpSeries {β : Type} (records : List β) (key : β → Int) (w : β → ℚ)
    (s0 : List (Int × ℚ)) :
    records.foldl (fun s l => bumpSeries s (key l) (w l)) s0 =
      s0.map (fun p => (p.1, p.2 + ((records.filter (fun l => key l = p.1)).map w).sum)) := by
  induction records generalizing s0 with
  | nil => simp
  | cons r rest ih =>
      rw [List.foldl_cons, ih]
      simp only [bumpSeries, List.map_map]
      apply List.map_congr_left
      intro p _
      simp only [Function.comp_apply]
      by_cases h : p.1 = key r
      · have h2 : key r = p.1 := h.symm
        rw [if_pos h]
        simp [List.filter_cons, h2, add_assoc]
      · have h2 : ¬key r = p.1 := fun hh => h hh.symm
        rw [if_neg h]
        simp [List.filter_cons, h2]

theorem sum_map_one {β : Type} (xs : List β) :
    (xs.map (fun _ => (1 : ℚ))).sum = (xs.length : ℚ) := by
  induction xs with
  | nil => simp
  | cons x t ih => simp [ih, add_comm]

theorem seriesKeys_eq (r : TimeRange) (tz : Int) :
    seriesKeys r tz =
      (List.range (daysCount r).toNat).map
        (fun (i : Nat) => utcDayMs (localMidnight r.start tz) + (i : Int)) := by
  unfold seriesKeys
  apply List.map_congr_left
  intro i _
  simp only [utcDayMs]
  exact Int.add_mul_ediv_right _ _ (by norm_num [dayMs])

theorem pairwise_lt_map_add (c : Int) (n : Nat) :
    ((List.range n).map (fun (i : Nat) => c + (i : Int))).Pairwise (· < ·) := by
  induction n with
  | zero => simp
  | succ m ih =>
      rw [List.range_succ, List.map_append]
      refine List.pairwise_append.mpr ⟨ih, by simp, ?_⟩
      intro a ha b hb
      simp only [List.mem_map, List.mem_range] at ha
      simp only [List.map_cons, List.map_nil, List.mem_singleton] at hb
      obtain ⟨i, hi, rfl⟩ := ha
      subst hb
      omega

theorem seriesKeys_pairwise (r : TimeRange) (tz : Int) :
    (seriesKeys r tz).Pairwise (· < ·) := by
  rw [seriesKeys_eq]
  exact pairwise_lt_map_add _ _

/-- C6 counterexample: the series keys and the record buckets are **UTC**
calendar dates (`toISOString`), not the server's local dates.  With a
UTC+2 offset (`tz = 7200000` ms) and the one-day range starting at epoch
0, the single key is UTC day `-1`, not the local day `0` the claim
prescribes; with a UTC-1 offset, a lead created at epoch 600 s (local
day `-1`, inside the key set) is bucketed by its UTC day `0` and silently
dropped, so the code's series stays zero where the claim's local-date
series counts 1. -/
theorem tsCompute_localdate_cex :
    (tsCompute "leads_created" ⟨0, dayMs⟩ 7200000 [] []).1 = [((-1 : Int), (0 : ℚ))] ∧
    tsComputeLocalSpec "leads_created" ⟨0, dayMs⟩ 7200000 [] [] = [((0 : Int), (0 : ℚ))] ∧
    (tsCompute "leads_created" ⟨0, dayMs⟩ 7200000 [] []).1 ≠
      tsComputeLocalSpec "leads_created" ⟨0, dayMs⟩ 7200000 [] [] ∧
    (tsCompute "leads_created" ⟨-dayMs, dayMs⟩ (-3600000) [{ created_at := 600 }] []).1 =
      [((-2 : Int), (0 : ℚ)), ((-1 : Int), (0 : ℚ))] ∧
    tsComputeLocalSpec "leads_created" ⟨-dayMs, dayMs⟩ (-3600000) [{ created_at := 600 }] [] =
      [((-2 : Int), (0 : ℚ)), ((-1 : Int), (1 : ℚ))] := by
  refine ⟨by rfl, by rfl, by decide, by rfl, ?_⟩
  have h : tsComputeLocalSpec "leads_created" ⟨-dayMs, dayMs⟩ (-3600000)
      [{ created_at := 600 }] [] = [((-2 : Int), (0 : ℚ)), ((-1 : Int), 0 + 1)] := by rfl
  rw [h]
  norm_num

theorem zeroSeries_eq_localKeys (r : TimeRange) :
    (List.range (daysCount r).toNat).map
        (fun (i : Nat) => (localDay r.start 0 + (i : Int), (0 : ℚ))) =
      zeroSeries r 0 := by
  rw [zeroSeries, seriesKeys_eq, List.map_map]
  apply List.map_congr_left
  intro i _
  have h : utcDayMs (localMidnight r.start 0) = localDay r.start 0 := by
    simp only [utcDayMs, localMidnight, sub_zero]
    exact Int.mul_ediv_cancel _ (by norm_num [dayMs])
  simp [Function.comp_def, h]

theorem localDay_zero_bucket (t : Int) : localDay (t * 1000) 0 = utcDayOfSec t := by
  simp [localDay, utcDayOfSec, utcDayMs]

/-- C6 (amended): the time-series aggregator builds one bucket per day for
`dayCount = ceil((end-start)/86400s)` days: the keys are the **UTC**
calendar dates (as printed by `toISOString().slice(0,10)`) of the local
midnights 0, 1, …, dayCount-1 days after `start`'s local date — these are
consecutive, so the output is in ascending date order — and each record is
bucketed by the **UTC** calendar date of its `created_at` (for
leads_created) or `closed_at` (for leads_won / revenue_won, restricted to
status 142), records whose date is outside the key set being silently
dropped; the claim's "local calendar date" reading holds exactly in the
UTC case, i.e. when the server offset is 0. -/
theorem tsCompute_amended (metric : String) (r : TimeRange) (tz : Int)
    (createdLeads closedLeads : List Lead) :
    (tsCompute metric r tz createdLeads closedLeads).1 =
      (seriesKeys r tz).map (fun k => (k, tsValueSpec metric createdLeads closedLeads k)) ∧
    seriesKeys r tz =
      (List.range (daysCount r).toNat).map
        (fun (i : Nat) => utcDayMs (localMidnight r.start tz) + (i : Int)) ∧
    (seriesKeys r tz).Pairwise (· < ·) ∧
    daysCount r = ceilDiv (r.finish - r.start) dayMs ∧
    (tz = 0 →
      (tsCompute metric r tz createdLeads closedLeads).1 =
        tsComputeLocalSpec metric r tz createdLeads closedLeads) := by
  refine ⟨?_, seriesKeys_eq r tz, seriesKeys_pairwise r tz, rfl, ?_⟩
  · by_cases h1 : metric = "leads_created"
    · subst h1
      have e1 : (tsCompute "leads_created" r tz createdLeads closedLeads).1 =
          createdLeads.foldl (fun s l => bumpSeries s (utcDayOfSec l.created_at) 1)
            (zeroSeries r tz) := rfl
      rw [e1, foldl_bumpSeries, zeroSeries, List.map_map]
      apply List.map_congr_left
      intro k _
      have e2 : tsValueSpec "leads_created" createdLeads closedLeads k =
          ((createdLeads.filter (fun l => utcDayOfSec l.created_at = k)).length : ℚ) := rfl
      simp [Function.comp_def, sum_map_one, e2]
    · by_cases h2 : metric = "leads_won"
      · subst h2
        have e1 : (tsCompute "leads_won" r tz createdLeads closedLeads).1 =
            (closedLeads.filter (fun l => l.status_id == some 142)).foldl
              (fun s l => bumpSeries s (utcDayOfSec l.closed_at) 1) (zeroSeries r tz) := rfl
        rw [e1, foldl_bumpSeries, zeroSeries, List.map_map]
        apply List.map_congr_left
        intro k _
        have e2 : tsValueSpec "leads_won" createdLeads closedLeads k =
            (((closedLeads.filter (fun l => l.status_id == some 142)).filter
              (fun l => utcDayOfSec l.closed_at = k)).length : ℚ) := rfl
        simp [Function.comp_def, sum_map_one, e2]
      · by_cases h3 : metric = "revenue_won"
        · subst h3
          have e1 : (tsCompute "revenue_won" r tz createdLeads closedLeads).1 =
              (closedLeads.filter (fun l => l.status_id == some 142)).foldl
                (fun s l => bumpSeries s (utcDayOfSec l.closed_at) (l.price.getD 0))
                (zeroSeries r tz) := rfl
          rw [e1, foldl_bumpSeries, zeroSeries, List.map_map]
          apply List.map_congr_left
          intro k _
          have e2 : tsValueSpec "revenue_won" createdLeads closedLeads k =
              ((((closedLeads.filter (fun l => l.status_id == some 142)).filter
                  (fun l => utcDayOfSec l.closed_at = k)).map
                (fun l => l.price.getD 0)).sum) := rfl
          simp [Function.comp_def, e2]
        · have hm2 : ¬(metric = "leads_won" ∨ metric = "revenue_won") :=
            fun hc => hc.elim h2 h3
          simp only [tsCompute, if_neg h1, if_neg hm2]
          show zeroSeries r tz = _
          rw [zeroSeries]
          apply List.map_congr_left
          intro k _
          have e2 : tsValueSpec metric createdLeads closedLeads k = 0 := by
            simp only [tsValueSpec, if_neg h1, if_neg hm2]
          simp [e2]
  · intro h0
    subst h0
    by_cases h1 : metric = "leads_created"
    · subst h1
      have e1 : (tsCompute "leads_created" r 0 createdLeads closedLeads).1 =
          createdLeads.foldl (fun s l => bumpSeries s (utcDayOfSec l.created_at) 1)
            (zeroSeries r 0) := rfl
      have e2 : tsComputeLocalSpec "leads_created" r 0 createdLeads closedLeads =
          createdLeads.foldl (fun s l => bumpSeries s (localDay (l.created_at * 1000) 0) 1)
            ((List.range (daysCount r).toNat).map
              (fun (i : Nat) => (localDay r.start 0 + (i : Int), (0 : ℚ)))) := rfl
      rw [e1, e2, zeroSeries_eq_localKeys, foldl_bumpSeries, foldl_bumpSeries]
      apply List.map_congr_left
      intro p _
      have hf : createdLeads.filter (fun l => utcDayOfSec l.created_at = p.1) =
          createdLeads.filter (fun l => localDay (l.created_at * 1000) 0 = p.1) :=
        List.filter_congr (fun a _ => by rw [localDay_zero_bucket])
      rw [hf]
    · by_cases h2 : metric = "leads_won"
      · subst h2
        have e1 : (tsCompute "leads_won" r 0 createdLeads closedLeads).1 =
            (closedLeads.filter (fun l => l.status_id == some 142)).foldl
              (fun s l => bumpSeries s (utcDayOfSec l.closed_at) 1) (zeroSeries r 0) := rfl
        have e2 : tsComputeLocalSpec "leads_won" r 0 createdLeads closedLeads =
            (closedLeads.filter (fun l => l.status_id == some 142)).foldl
              (fun s l => bumpSeries s (localDay (l.closed_at * 1000) 0) 1)
              ((List.range (daysCount r).toNat).map
                (fun (i : Nat) => (localDay r.start 0 + (i : Int), (0 : ℚ)))) := rfl
        rw [e1, e2, zeroSeries_eq_localKeys, foldl_bumpSeries, foldl_bumpSeries]
        apply List.map_congr_left
        intro p _
        have hf : (closedLeads.filter (fun l => l.status_id == some 142)).filter
              (fun l => utcDayOfSec l.closed_at = p.1) =
            (closedLeads.filter (fun l => l.status_id == some 142)).filter
              (fun l => localDay (l.closed_at * 1000) 0 = p.1) :=
          List.filter_congr (fun a _ => by rw [localDay_zero_bucket])
        rw [hf]
      · by_cases h3 : metric = "revenue_won"
        · subst h3
          have e1 : (tsCompute "revenue_won" r 0 createdLeads closedLeads).1 =
              (closedLeads.filter (fun l => l.status_id == some 142)).foldl
                (fun s l => bumpSeries s (utcDayOfSec l.closed_at) (l.price.getD 0))
                (zeroSeries r 0) := rfl
          have e2 : tsComputeLocalSpec "revenue_won" r 0 createdLeads closedLeads =
              (closedLeads.filter (fun l => l.status_id == some 142)).foldl
                (fun s l => bumpSeries s (localDay (l.closed_at * 1000) 0) (l.price.getD 0))
                ((List.range (daysCount r).toNat).map
                  (fun (i : Nat) => (localDay r.start 0 + (i : Int), (0 : ℚ)))) := rfl
          rw [e1, e2, zeroSeries_eq_localKeys, foldl_bumpSeries, foldl_bumpSeries]
          apply List.map_congr_left
          intro p _
          have hf : (closedLeads.filter (fun l => l.status_id == some 142)).filter
                (fun l => utcDayOfSec l.closed_at = p.1) =
              (closedLeads.filter (fun l => l.status_id == some 142)).filter
                (fun l => localDay (l.closed_at * 1000) 0 = p.1) :=
            List.filter_congr (fun a _ => by rw [localDay_zero_bucket])
          rw [hf]
        · have hm2 : ¬(metric = "leads_won" ∨ metric = "revenue_won") :=
            fun hc => hc.elim h2 h3
          simp only [tsCompute, tsComputeLocalSpec, if_neg h1, if_neg hm2]
          exact (zeroSeries_eq_localKeys r).symm

/-- Witness for C6's amended theorem: under a UTC server clock (`tz = 0`)
the code series and the claim's local-date series coincide on the one-day
range starting at epoch 0, and evaluate to the single zero bucket of
day 0. -/
theorem tsCompute_amended_witness :
    (tsCompute "leads_created" ⟨0, dayMs⟩ 0 [] []).1 =
      tsComputeLocalSpec "leads_created" ⟨0, dayMs⟩ 0 [] [] ∧
    (tsCompute "leads_created" ⟨0, dayMs⟩ 0 [] []).1 = [((0 : Int), (0 : ℚ))] := by
  have h := tsCompute_amended "leads_created" ⟨0, dayMs⟩ 0 [] []
  exact ⟨h.2.2.2.2 rfl, by rfl⟩

/-! ## C7 -/

theorem ceilDiv_day_self : ceilDiv dayMs dayMs = 1 := by decide

theorem daysCount_today (x : Int) : daysCount ⟨x, x + dayMs⟩ = 1 := by
  show ceilDiv (x + dayMs - x) dayMs = 1
  rw [show x + dayMs - x = dayMs from by ring]
  exact ceilDiv_day_self

/-- C7 counterexample: a timeseries request with `range = "custom"` (with
any `from`/`to`, e.g. from = 100000 > to = 0) at `now = 250000`, `tz = 0`
resolves to the **today** window `⟨0, 86400000⟩`, a strictly positive
duration with exactly one day bucket — not a zero/negative-length range
with an empty bucket set — because the handler calls `parseRange(range)`
without forwarding `from`/`to`. -/
theorem tsCustomRange_cex :
    tsResolvedRange (some "custom") 250000 0 = ⟨0, dayMs⟩ ∧
    (tsResolvedRange (some "custom") 250000 0).start <
      (tsResolvedRange (some "custom") 250000 0).finish ∧
    (seriesKeys (tsResolvedRange (some "custom") 250000 0) 0).length = 1 := by
  decide

/-- C7 (amended): the timeseries handler never forwards `from`/`to` to the
range resolver, so a custom-range timeseries request always resolves to
the today window — a positive one-day range with exactly one day bucket;
`parseRange` itself, when given `custom` with both bounds and
`from > to`, does return the inverted range `⟨from, to⟩` with negative
duration, whose day-bucket set is empty. -/
theorem tsCustomRange_amended (now tz f t : Int) :
    tsResolvedRange (some "custom") now tz =
      ⟨localMidnight now tz, localMidnight now tz + dayMs⟩ ∧
    (seriesKeys (tsResolvedRange (some "custom") now tz) tz).length = 1 ∧
    (t < f →
      parseRange "custom" (some f) (some t) now tz = ⟨f, t⟩ ∧
      (parseRange "custom" (some f) (some t) now tz).finish <
        (parseRange "custom" (some f) (some t) now tz).start ∧
      (seriesKeys (parseRange "custom" (some f) (some t) now tz) tz).length = 0) := by
  refine ⟨rfl, ?_, ?_⟩
  · show (seriesKeys ⟨localMidnight now tz, localMidnight now tz + dayMs⟩ tz).length = 1
    simp [seriesKeys, daysCount_today]
  · intro hlt
    refine ⟨rfl, hlt, ?_⟩
    show (seriesKeys ⟨f, t⟩ tz).length = 0
    have hle : daysCount ⟨f, t⟩ ≤ 0 := by
      show -((-(t - f)).ediv dayMs) ≤ 0
      have h0 : (0 : Int) ≤ -(t - f) := by omega
      exact neg_nonpos_of_nonneg (Int.ediv_nonneg h0 (by norm_num [dayMs]))
    simp [seriesKeys, Int.toNat_of_nonpos hle]

/-- Witness for C7's amended theorem at `now = 0`, `tz = 0`, `f = 5`,
`t = 3`. -/
theorem tsCustomRange_amended_witness :
    (3 : Int) < 5 ∧
    (seriesKeys (parseRange "custom" (some 5) (some 3) 0 0) 0).length = 0 ∧
    (seriesKeys (tsResolvedRange (some "custom") 0 0) 0).length = 1 := by
  have h := tsCustomRange_amended 0 0 5 3
  exact ⟨by decide, (h.2.2 (by decide)).2.2, h.2.1⟩

/-! ## C8 -/

theorem bucketTasks_fold (tasks : List Task) (now tz : Int) (b : TaskBuckets) :
    tasks.foldl
        (fun b t =>
          match taskDue t with
          | some d => bucketOne b d now tz
          | none => b) b =
      ⟨b.overdue + (tasks.filter (fun t => isOverdue t now)).length,
        b.today + (tasks.filter (fun t => isTodayTask t now tz)).length,
        b.next48h + (tasks.filter (fun t => isNext48h t now tz)).length⟩ := by
  induction tasks generalizing b with
  | nil => simp
  | cons t rest ih =>
      rw [List.foldl_cons, ih]
      cases hd : taskDue t with
      | none => simp [List.filter_cons, isOverdue, isTodayTask, isNext48h, hd]
      | some d =>
          by_cases h1 : d < now
          · simp [List.filter_cons, isOverdue, isTodayTask, isNext48h, hd, h1, bucketOne,
              TaskBuckets.mk.injEq]
            omega
          · by_cases h2 : localDay d tz = localDay now tz
            · simp [List.filter_cons, isOverdue, isTodayTask, isNext48h, hd, h1, h2,
                bucketOne, TaskBuckets.mk.injEq]
              omega
            · by_cases h3 : d - now ≤ 48 * 60 * 60 * 1000
              · have h3a : d ≤ 172800000 + now := by omega
                simp [List.filter_cons, isOverdue, isTodayTask, isNext48h, hd, h1, h2, h3,
                  h3a, bucketOne, TaskBuckets.mk.injEq]
                omega
              · have h3a : ¬d ≤ 172800000 + now := by omega
                simp [List.filter_cons, isOverdue, isTodayTask, isNext48h, hd, h1, h2, h3,
                  h3a, bucketOne]

/-- C8 counterexample: two incomplete tasks that each carry a due
timestamp end up in **no** bucket, although the claim classifies every
task with a due timestamp into exactly one bucket: a task with
`complete_till_at = 0` (epoch 0, strictly before `now = 1000` ms, so the
claim puts it in `overdue`) is skipped because `0` is falsy in JS, and a
task due at 200000 s (≈ 55.5 h after `now`, beyond the 48-hour horizon)
matches no guard. -/
theorem bucketTasks_exactly_one_cex :
    ({ complete_till_at := some 0 } : Task).complete_till_at ≠ none ∧
    (bucketTasks [{ complete_till_at := some 0 }] 1000 0).overdue +
        (bucketTasks [{ complete_till_at := some 0 }] 1000 0).today +
        (bucketTasks [{ complete_till_at := some 0 }] 1000 0).next48h = 0 ∧
    ({ complete_till_at := some 200000 } : Task).complete_till_at ≠ none ∧
    (bucketTasks [{ complete_till_at := some 200000 }] 1000 0).overdue +
        (bucketTasks [{ complete_till_at := some 200000 }] 1000 0).today +
        (bucketTasks [{ complete_till_at := some 200000 }] 1000 0).next48h = 0 := by
  decide

/-- C8 (amended): the task bucketer classifies each task with a **nonzero**
due timestamp into **at most** one bucket (a zero timestamp is falsy and
treated as absent; a task due beyond the 48-hour horizon falls into no
bucket), testing in the order overdue (due strictly before now), today
(same local calendar date, not overdue), next48h (within 48 h of now, not
overdue or today), with first match winning, so the buckets are mutually
exclusive; tasks without a due timestamp are excluded; the output is the
three counts. -/
theorem bucketTasks_amended (tasks : List Task) (now tz : Int) :
    bucketTasks tasks now tz =
      ⟨(tasks.filter (fun t => isOverdue t now)).length,
        (tasks.filter (fun t => isTodayTask t now tz)).length,
        (tasks.filter (fun t => isNext48h t now tz)).length⟩ ∧
    (∀ t : Task, taskDue t = none →
      isOverdue t now = false ∧ isTodayTask t now tz = false ∧ isNext48h t now tz = false) ∧
    (∀ t : Task,
      ¬(isOverdue t now = true ∧ isTodayTask t now tz = true) ∧
      ¬(isOverdue t now = true ∧ isNext48h t now tz = true) ∧
      ¬(isTodayTask t now tz = true ∧ isNext48h t now tz = true)) := by
  refine ⟨?_, ?_, ?_⟩
  · rw [bucketTasks, bucketTasks_fold]
    simp
  · intro t h
    simp [isOverdue, isTodayTask, isNext48h, h]
  · intro t
    cases hd : taskDue t with
    | none => simp [isOverdue, isTodayTask, isNext48h, hd]
    | some d =>
        simp only [isOverdue, isTodayTask, isNext48h, hd]
        refine ⟨?_, ?_, ?_⟩ <;> intro hcon <;> simp at hcon <;> omega

/-- Witness for C8's amended theorem: a task due at 1 s is overdue at
`now = 1000000` ms, and a task with no due timestamp satisfies none of
the bucket predicates. -/
theorem bucketTasks_amended_witness :
    bucketTasks [{ complete_till_at := some 1 }] 1000000 0 = ⟨1, 0, 0⟩ ∧
    isOverdue { complete_till_at := none } 1000000 = false := by
  have h := bucketTasks_amended [{ complete_till_at := some 1 }] 1000000 0
  exact ⟨h.1.trans (by decide), (h.2.1 { complete_till_at := none } rfl).1⟩

/-! ## C9 -/

/-- C9 counterexample: the `metric` parameter present but equal to the
empty string (`?metric=`) is **present** and not one of the three known
selectors, yet `if (!metric)` treats it as falsy and the handler responds
400 instead of the claimed all-zero series with no error status. -/
theorem tsHandler_empty_metric_cex :
    tsHandler (some "") none none none 0 0 [] [] [] 0 =
      (400, TsBody.error "metric is required", [], 0) ∧
    (tsHandler (some "") none none none 0 0 [] [] [] 0).1 ≠ 200 := by
  exact ⟨rfl, by decide⟩

/-- C9 (amended): a request whose `metric` parameter is present and
**non-empty** but not one of leads_created / leads_won / revenue_won gets
status 200 with the all-zero day series for the resolved range and no lead
fetch is performed; a request with `metric` absent — or present but empty,
which JS truthiness conflates with absent — gets status 400 with the
message "metric is required", no fetch, and an unchanged cache. -/
theorem tsHandler_metric_amended (m : String) (range pipelineId userId : Option String)
    (now tz : Int) (createdLeads closedLeads : List Lead)
    (st : CacheState (List (Int × ℚ))) (cacheNow : Nat) :
    (m ≠ "" → m ≠ "leads_created" → m ≠ "leads_won" → m ≠ "revenue_won" →
      (tsHandler (some m) range pipelineId userId now tz createdLeads closedLeads []
          cacheNow).1 = 200 ∧
      (tsHandler (some m) range pipelineId userId now tz createdLeads closedLeads []
          cacheNow).2.1 =
        TsBody.series (zeroSeries (tsResolvedRange range now tz) tz) ∧
      (tsHandler (some m) range pipelineId userId now tz createdLeads closedLeads []
          cacheNow).2.2.2 = 0) ∧
    tsHandler none range pipelineId userId now tz createdLeads closedLeads st cacheNow =
      (400, .error "metric is required", st, 0) ∧
    tsHandler (some "") range pipelineId userId now tz createdLeads closedLeads st cacheNow =
      (400, .error "metric is required", st, 0) := by
  refine ⟨?_, by simp [tsHandler, jsTruthyStr], by simp [tsHandler, jsTruthyStr]⟩
  intro h0 h1 h2 h3
  have hm2 : ¬(m = "leads_won" ∨ m = "revenue_won") := fun hc => hc.elim h2 h3
  have htr : jsTruthyStr (some m) = true := by simp [jsTruthyStr, h0]
  have hc : tsCompute m (tsResolvedRange range now tz) tz createdLeads closedLeads =
      (zeroSeries (tsResolvedRange range now tz) tz, 0) := by
    simp only [tsCompute, if_neg h1, if_neg hm2]
  simp only [tsHandler, htr, Bool.not_true, Bool.false_eq_true, if_false, jsStr, hc,
    getCached, cacheLookup, List.find?_nil, Option.map_none]
  simp

/-- Witness for C9's amended theorem: metric `"bogus"` at `now = 0`,
`tz = 0` on an empty cache. -/
theorem tsHandler_metric_amended_witness :
    (tsHandler (some "bogus") none none none 0 0 [] [] [] 0).1 = 200 ∧
    (tsHandler (some "bogus") none none none 0 0 [] [] [] 0).2.2.2 = 0 ∧
    tsHandler none none none none 0 0 [] [] [] 0 =
      (400, .error "metric is required", [], 0) := by
  have h := tsHandler_metric_amended "bogus" none none none 0 0 [] [] [] 0
  exact ⟨(h.1 (by decide) (by decide) (by decide) (by decide)).1,
    (h.1 (by decide) (by decide) (by decide) (by decide)).2.2, h.2.1⟩

/-! ## C10 -/

/-- C10: a timeseries request with the `range` parameter omitted resolves
the 7-day rolling window `[now - 7*86400s, now)` — the endpoint
substitutes the default token `'7d'` before range resolution — whereas the
range resolver's own fallback for any unrecognized token (and for `custom`
without forwarded bounds) is the today window, which starts strictly
later. -/
theorem tsRange_default_7d (now tz : Int) :
    tsResolvedRange none now tz = ⟨now - 7 * dayMs, now⟩ ∧
    (∀ tok : String, tok ≠ "today" → tok ≠ "yesterday" → tok ≠ "7d" → tok ≠ "30d" →
      parseRange tok none none now tz =
        ⟨localMidnight now tz, localMidnight now tz + dayMs⟩) ∧
    (tsResolvedRange none now tz).start ≠
      (parseRange "unrecognized" none none now tz).start := by
  have hmid : localMidnight now tz = now - (now + tz).emod dayMs := by
    have h : dayMs * (now + tz).ediv dayMs + (now + tz).emod dayMs = now + tz :=
      Int.ediv_add_emod (now + tz) dayMs
    have hc : dayMs * (now + tz).ediv dayMs = (now + tz).ediv dayMs * dayMs :=
      Int.mul_comm _ _
    simp only [localMidnight, localDay]
    linarith [h, hc]
  refine ⟨rfl, ?_, ?_⟩
  · intro tok h1 h2 h3 h4
    unfold parseRange
    simp only [if_neg h1, if_neg h2, if_neg h3, if_neg h4]
    by_cases h5 : tok = "custom"
    · simp [h5]
    · simp [h5]
  · have e : parseRange "unrecognized" none none now tz =
        ⟨localMidnight now tz, localMidnight now tz + dayMs⟩ := rfl
    rw [e]
    show now - 7 * dayMs ≠ localMidnight now tz
    rw [hmid]
    have hl : 0 ≤ (now + tz).emod dayMs := Int.emod_nonneg _ (by norm_num [dayMs])
    have hu : (now + tz).emod dayMs < dayMs := Int.emod_lt_of_pos _ (by norm_num [dayMs])
    simp only [dayMs] at hl hu ⊢
    omega

/-- Witness for C10 at `now = 0`, `tz = 0`. -/
theorem tsRange_default_7d_witness :
    tsResolvedRange none 0 0 = ⟨-7 * dayMs, 0⟩ ∧
    parseRange "x" none none 0 0 = ⟨0, dayMs⟩ ∧
    (-7 : Int) * dayMs ≠ 0 := by
  have h := tsRange_default_7d 0 0
  refine ⟨?_, ?_, by decide⟩
  · rw [h.1]
    decide
  · rw [h.2.1 "x" (by decide) (by decide) (by decide) (by decide)]
    decide

end KommoDash
